import Mathlib

/-
  Verification of the shipping pricing core of the E-Commerce-Shipping-Charge-Estimator
  repository.

  Shallow embedding conventions:
  - JavaScript numbers that hold data read from the database (coordinates, weights,
    configured charges) are modelled as rationals; values produced by the
    floating-point computation (distances, charges) are modelled as real numbers.
  - `Math.round x` is `round x` (both are `⌊x + 1/2⌋`, round half towards +∞).
  - Fallible operations (code paths that `throw`) return `Except`.
  - Generic `Error(msg)` throws are modelled by an error constructor carrying the
    message string of the source.
-/

/-- Rounding helper: the source writes `Math.round(x * 100) / 100` to round a
monetary or distance value to 2 decimal places. -/
noncomputable def round2R (x : ℝ) : ℝ := ((round (x * 100) : ℤ) : ℝ) / 100

/- ===================== transport-strategy.ts ===================== -/

/-- Transport strategy record: `canHandle`, `getRate`, `getMode` from the
`TransportStrategy` interface of `transport-strategy.ts`. -/
structure TransportStrategy where
  canHandle : ℝ → Prop
  rate : ℝ
  transportMode : String

/-- Aeroplane strategy: `canHandle d = d >= 500`, rate 1.0, mode "Aeroplane". -/
def AeroplaneStrategy : TransportStrategy :=
  { canHandle := fun d => 500 ≤ d, rate := 1, transportMode := "Aeroplane" }

/-- Truck strategy: `canHandle d = d >= 100 && d < 500`, rate 2.0, mode "Truck". -/
def TruckStrategy : TransportStrategy :=
  { canHandle := fun d => 100 ≤ d ∧ d < 500, rate := 2, transportMode := "Truck" }

/-- Mini Van strategy: `canHandle d = d >= 0 && d < 100`, rate 3.0, mode "Mini Van". -/
def MiniVanStrategy : TransportStrategy :=
  { canHandle := fun d => 0 ≤ d ∧ d < 100, rate := 3, transportMode := "Mini Van" }

/-- Strategy list of the `TransportModeSelector` constructor, ordered longest
distance first, exactly as in the source. -/
def transportStrategies : List TransportStrategy :=
  [AeroplaneStrategy, TruckStrategy, MiniVanStrategy]

/-- Errors thrown by `TransportModeSelector.selectStrategy`: the source throws
`Error('Distance cannot be negative')` for a negative distance (the spec's
`NegativeDistanceError`) and `Error('No transport mode available ...')` when no
strategy matches. -/
inductive SelectError
  | negativeDistance
  | noTransportMode
  deriving DecidableEq

open Classical in
/-- List scan of `selectStrategy`: return the first strategy whose `canHandle`
accepts the distance (`for (const strategy of this.strategies) ...`). -/
noncomputable def findStrategy : List TransportStrategy → ℝ → Option TransportStrategy
  | [], _ => none
  | s :: rest, d => if s.canHandle d then some s else findStrategy rest d

open Classical in
/-- Embedding of `TransportModeSelector.selectStrategy`. -/
noncomputable def selectStrategy (d : ℝ) : Except SelectError TransportStrategy :=
  if d < 0 then .error .negativeDistance
  else
    match findStrategy transportStrategies d with
    | some s => .ok s
    | none => .error .noTransportMode

/-- Embedding of `TransportModeSelector.getTransportModeAndRate`. -/
noncomputable def getTransportModeAndRate (d : ℝ) : Except SelectError (String × ℝ) :=
  match selectStrategy d with
  | .error e => .error e
  | .ok s => .ok (s.transportMode, s.rate)

theorem findStrategy_cons_pos {s : TransportStrategy} {rest : List TransportStrategy}
    {d : ℝ} (h : s.canHandle d) : findStrategy (s :: rest) d = some s := by
  unfold findStrategy
  exact if_pos h

theorem findStrategy_cons_neg {s : TransportStrategy} {rest : List TransportStrategy}
    {d : ℝ} (h : ¬ s.canHandle d) : findStrategy (s :: rest) d = findStrategy rest d := by
  conv_lhs => unfold findStrategy
  exact if_neg h

theorem selectStrategy_neg {d : ℝ} (hd : d < 0) :
    selectStrategy d = .error .negativeDistance := by
  unfold selectStrategy
  rw [if_pos hd]

theorem selectStrategy_aero {d : ℝ} (hd : 500 ≤ d) :
    selectStrategy d = .ok AeroplaneStrategy := by
  unfold selectStrategy transportStrategies
  rw [if_neg (by linarith : ¬ d < 0), findStrategy_cons_pos hd]

theorem selectStrategy_truck {d : ℝ} (h1 : 100 ≤ d) (h2 : d < 500) :
    selectStrategy d = .ok TruckStrategy := by
  unfold selectStrategy transportStrategies
  rw [if_neg (by linarith : ¬ d < 0),
    findStrategy_cons_neg (by simp only [AeroplaneStrategy]; linarith : ¬ AeroplaneStrategy.canHandle d),
    findStrategy_cons_pos (show TruckStrategy.canHandle d from ⟨h1, h2⟩)]

theorem selectStrategy_minivan {d : ℝ} (h1 : 0 ≤ d) (h2 : d < 100) :
    selectStrategy d = .ok MiniVanStrategy := by
  unfold selectStrategy transportStrategies
  rw [if_neg (by linarith : ¬ d < 0),
    findStrategy_cons_neg (by simp only [AeroplaneStrategy]; linarith : ¬ AeroplaneStrategy.canHandle d),
    findStrategy_cons_neg (by simp only [TruckStrategy]; rintro ⟨ha, hb⟩; linarith : ¬ TruckStrategy.canHandle d),
    findStrategy_cons_pos (show MiniVanStrategy.canHandle d from ⟨h1, h2⟩)]

/-- Totality of the selector on non-negative distances: the bands cover `[0, ∞)`. -/
theorem getTransportModeAndRate_total {d : ℝ} (hd : 0 ≤ d) :
    ∃ p, getTransportModeAndRate d = .ok p := by
  unfold getTransportModeAndRate
  rcases lt_or_le d 100 with h | h
  · exact ⟨_, by rw [selectStrategy_minivan hd h]⟩
  · rcases lt_or_le d 500 with h' | h'
    · exact ⟨_, by rw [selectStrategy_truck h h']⟩
    · exact ⟨_, by rw [selectStrategy_aero h']⟩

/-- C2: for every distance d >= 0 the selector returns exactly one mode and rate:
("Mini Van", 3.0) on [0,100), ("Truck", 2.0) on [100,500), ("Aeroplane", 1.0) on
[500,inf); in particular d = 100 selects Truck, d = 500 selects Aeroplane, and no
non-negative distance falls outside every band. -/
theorem transport_selector_bands (d : ℝ) (hd : 0 ≤ d) :
    (d < 100 → getTransportModeAndRate d = .ok ("Mini Van", 3)) ∧
    (100 ≤ d → d < 500 → getTransportModeAndRate d = .ok ("Truck", 2)) ∧
    (500 ≤ d → getTransportModeAndRate d = .ok ("Aeroplane", 1)) ∧
    (∃ p, getTransportModeAndRate d = .ok p) := by
  refine ⟨fun h => ?_, fun h1 h2 => ?_, fun h => ?_, getTransportModeAndRate_total hd⟩
  · unfold getTransportModeAndRate
    rw [selectStrategy_minivan hd h]
    rfl
  · unfold getTransportModeAndRate
    rw [selectStrategy_truck h1 h2]
    rfl
  · unfold getTransportModeAndRate
    rw [selectStrategy_aero h]
    rfl

/-- Witness for C2 at the boundary distance 100, which selects Truck. -/
theorem transport_selector_bands_witness :
    getTransportModeAndRate 100 = .ok ("Truck", 2) :=
  (transport_selector_bands 100 (by norm_num)).2.1 (by norm_num) (by norm_num)

/-- C6: for every distance d < 0 the selector raises the negative-distance error
(the source throws `Error('Distance cannot be negative')`, the spec's
`NegativeDistanceError`) and never returns a mode. -/
theorem transport_selector_negative (d : ℝ) (hd : d < 0) :
    selectStrategy d = .error .negativeDistance ∧
    getTransportModeAndRate d = .error .negativeDistance := by
  refine ⟨selectStrategy_neg hd, ?_⟩
  unfold getTransportModeAndRate
  rw [selectStrategy_neg hd]

/-- Witness for C6: select(-1) raises the negative-distance error. -/
theorem transport_selector_negative_witness :
    selectStrategy (-1) = .error .negativeDistance ∧
    getTransportModeAndRate (-1) = .error .negativeDistance :=
  transport_selector_negative (-1) (by norm_num)

/- ===================== distance-calculator.ts ===================== -/

/-- Degree-to-radian conversion `degrees * (Math.PI / 180)`. -/
noncomputable def toRadians (degrees : ℝ) : ℝ := degrees * (Real.pi / 180)

open Classical in
/-- JavaScript `Math.atan2 y x` on real inputs (piecewise quadrant definition). -/
noncomputable def atan2 (y x : ℝ) : ℝ :=
  if 0 < x then Real.arctan (y / x)
  else if x < 0 then
    (if 0 ≤ y then Real.arctan (y / x) + Real.pi else Real.arctan (y / x) - Real.pi)
  else if 0 < y then Real.pi / 2
  else if y < 0 then -(Real.pi / 2)
  else 0

/-- Intermediate haversine quantity `a` of `calculateDistance`:
`sin(dLat/2)*sin(dLat/2) + cos(lat1)*cos(lat2)*sin(dLon/2)*sin(dLon/2)`
with all angles converted to radians. -/
noncomputable def haversineA (lat1 lon1 lat2 lon2 : ℝ) : ℝ :=
  Real.sin (toRadians (lat2 - lat1) / 2) * Real.sin (toRadians (lat2 - lat1) / 2) +
    Real.cos (toRadians lat1) * Real.cos (toRadians lat2) *
      Real.sin (toRadians (lon2 - lon1) / 2) * Real.sin (toRadians (lon2 - lon1) / 2)

/-- Great-circle distance of `calculateDistance` after validation:
`R * c` with `R = 6371` and `c = 2 * atan2(sqrt a, sqrt (1 - a))`. -/
noncomputable def haversineR (lat1 lon1 lat2 lon2 : ℝ) : ℝ :=
  6371 * (2 * atan2 (Real.sqrt (haversineA lat1 lon1 lat2 lon2))
    (Real.sqrt (1 - haversineA lat1 lon1 lat2 lon2)))

/-- Embedding of `isValidCoordinate`: latitude in [-90, 90] and longitude in
[-180, 180]. The source additionally rejects NaN, which has no counterpart for
rational inputs. -/
def isValidCoordinate (lat lon : ℚ) : Bool :=
  decide (-90 ≤ lat) && decide (lat ≤ 90) && decide (-180 ≤ lon) && decide (lon ≤ 180)

/-- Embedding of `calculateDistance` of `distance-calculator.ts`: validate both
points, then compute the haversine distance; on a validation failure the source
throws the single generic `Error('Invalid coordinates provided')`. -/
noncomputable def calculateDistance (lat1 lon1 lat2 lon2 : ℚ) : Except String ℝ :=
  if isValidCoordinate lat1 lon1 && isValidCoordinate lat2 lon2 then
    .ok (haversineR (lat1 : ℝ) (lon1 : ℝ) (lat2 : ℝ) (lon2 : ℝ))
  else .error "Invalid coordinates provided"

theorem haversineA_symm (lat1 lon1 lat2 lon2 : ℝ) :
    haversineA lat2 lon2 lat1 lon1 = haversineA lat1 lon1 lat2 lon2 := by
  unfold haversineA
  have h1 : toRadians (lat1 - lat2) / 2 = -(toRadians (lat2 - lat1) / 2) := by
    unfold toRadians; ring
  have h2 : toRadians (lon1 - lon2) / 2 = -(toRadians (lon2 - lon1) / 2) := by
    unfold toRadians; ring
  rw [h1, h2, Real.sin_neg, Real.sin_neg]
  ring

theorem haversineR_symm (lat1 lon1 lat2 lon2 : ℝ) :
    haversineR lat2 lon2 lat1 lon1 = haversineR lat1 lon1 lat2 lon2 := by
  unfold haversineR
  rw [haversineA_symm]

theorem atan2_zero_one : atan2 0 1 = 0 := by
  unfold atan2
  rw [if_pos (by norm_num : (0:ℝ) < 1)]
  norm_num [Real.arctan_zero]

theorem haversineA_self (lat lon : ℝ) : haversineA lat lon lat lon = 0 := by
  unfold haversineA toRadians
  simp

theorem haversineR_self (lat lon : ℝ) : haversineR lat lon lat lon = 0 := by
  unfold haversineR
  rw [haversineA_self]
  rw [Real.sqrt_zero, show (1:ℝ) - 0 = 1 by norm_num, Real.sqrt_one, atan2_zero_one]
  ring

theorem atan2_nonneg {y : ℝ} (x : ℝ) (hy : 0 ≤ y) : 0 ≤ atan2 y x := by
  have hpi := Real.pi_pos
  unfold atan2
  split_ifs with h1 h2 h3 h4
  · have h0 : Real.arctan 0 ≤ Real.arctan (y / x) :=
      Real.arctan_strictMono.monotone (div_nonneg hy h1.le)
    rwa [Real.arctan_zero] at h0
  · have := Real.neg_pi_div_two_lt_arctan (y / x)
    linarith
  · linarith
  · linarith
  · exact le_refl 0

theorem haversineR_nonneg (lat1 lon1 lat2 lon2 : ℝ) :
    0 ≤ haversineR lat1 lon1 lat2 lon2 := by
  unfold haversineR
  have h := atan2_nonneg (Real.sqrt (1 - haversineA lat1 lon1 lat2 lon2))
    (Real.sqrt_nonneg (haversineA lat1 lon1 lat2 lon2))
  positivity

/-- C5: for all valid coordinate points A and B, `calculateDistance` is symmetric,
and for every valid point A, `calculateDistance(A,A)` is exactly 0. -/
theorem calculateDistance_symm_self (lat1 lon1 lat2 lon2 : ℚ)
    (h1 : isValidCoordinate lat1 lon1 = true) (h2 : isValidCoordinate lat2 lon2 = true) :
    calculateDistance lat1 lon1 lat2 lon2 = calculateDistance lat2 lon2 lat1 lon1 ∧
    calculateDistance lat1 lon1 lat1 lon1 = .ok 0 := by
  constructor
  · unfold calculateDistance
    rw [h1, h2]
    simp only [Bool.and_self, Bool.and_true, Bool.true_and, if_true]
    rw [haversineR_symm]
  · unfold calculateDistance
    rw [h1]
    simp only [Bool.and_self, if_true]
    rw [haversineR_self]

/-- Witness for C5 at the Delhi-area point (28, 77) against (19, 72). -/
theorem calculateDistance_symm_self_witness :
    calculateDistance 28 77 19 72 = calculateDistance 19 72 28 77 ∧
    calculateDistance 28 77 28 77 = .ok 0 :=
  calculateDistance_symm_self 28 77 19 72 (by decide) (by decide)

/-- Counterexample for C7: an out-of-range latitude on the first point and an
out-of-range longitude on the second point produce the very same error value, so
the error raised by `calculateDistance` cannot identify which field of which
point failed the check. -/
theorem calculateDistance_generic_error_cx :
    calculateDistance 100 0 0 0 = .error "Invalid coordinates provided" ∧
    calculateDistance 0 0 0 200 = .error "Invalid coordinates provided" := by
  constructor <;>
    · unfold calculateDistance
      rw [if_neg]
      decide

/-- C7 amended: whenever either input point is out of range, `calculateDistance`
fails, but with the single generic error `Invalid coordinates provided` that does
not identify which field or which point failed. -/
theorem calculateDistance_invalid_fails (lat1 lon1 lat2 lon2 : ℚ)
    (h : isValidCoordinate lat1 lon1 = false ∨ isValidCoordinate lat2 lon2 = false) :
    calculateDistance lat1 lon1 lat2 lon2 = .error "Invalid coordinates provided" := by
  unfold calculateDistance
  rw [if_neg]
  rcases h with h | h <;> simp [h]

/-- Witness for the amended C7 at latitude 100 on the first point. -/
theorem calculateDistance_invalid_fails_witness :
    calculateDistance 100 0 0 0 = .error "Invalid coordinates provided" :=
  calculateDistance_invalid_fails 100 0 0 0 (Or.inl (by decide))

/- ===================== cache-manager.ts ===================== -/

/-- Cache entry `{ value, expiresAt }` with the expiry time in epoch milliseconds. -/
structure CacheEntry (α : Type) where
  value : α
  expiresAt : ℤ
  deriving Repr, DecidableEq

/-- State of the `CacheManager` singleton: the underlying `Map` (modelled as an
insertion-ordered association list) together with the hit and miss counters.
Wall-clock time (`Date.now()`) is passed explicitly to each operation. -/
structure CacheManager (α : Type) where
  cache : List (String × CacheEntry α)
  hits : ℕ
  misses : ℕ
  deriving Repr, DecidableEq

/-- Stats record returned by `getStats`. -/
structure CacheStats where
  hits : ℕ
  misses : ℕ
  size : ℕ
  hitRate : ℚ
  deriving Repr, DecidableEq

/-- Fresh cache state (the singleton right after construction). -/
def CacheManager.empty {α : Type} : CacheManager α := ⟨[], 0, 0⟩

/-- JavaScript `Map.set` on an association list: replace the entry of an existing
key in place, otherwise append at the end. -/
def mapSet {α : Type} : List (String × CacheEntry α) → String → CacheEntry α →
    List (String × CacheEntry α)
  | [], k, e => [(k, e)]
  | p :: ps, k, e => if p.1 == k then (k, e) :: ps else p :: mapSet ps k e

/-- Lookup of the raw entry stored under a key (JavaScript `Map.get`). -/
def CacheManager.findEntry {α : Type} (c : CacheManager α) (k : String) :
    Option (CacheEntry α) :=
  (c.cache.find? (fun p => p.1 == k)).map Prod.snd

/-- Default TTL of the source: 5 minutes in milliseconds. -/
def defaultTTL : ℤ := 300000

/-- Embedding of `CacheManager.set`: `expiresAt = Date.now() + (ttl || defaultTTL)`.
Note that the JavaScript `||` sends an explicit TTL of `0` to the default TTL. -/
def CacheManager.set {α : Type} (c : CacheManager α) (k : String) (v : α)
    (ttl : Option ℤ) (now : ℤ) : CacheManager α :=
  let t := match ttl with
    | none => defaultTTL
    | some t => if t = 0 then defaultTTL else t
  { c with cache := mapSet c.cache k ⟨v, now + t⟩ }

/-- Embedding of `CacheManager.get`: missing key counts a miss; an entry with
`now > expiresAt` is deleted and counts a miss; otherwise a hit returns the value. -/
def CacheManager.get {α : Type} (c : CacheManager α) (k : String) (now : ℤ) :
    Option α × CacheManager α :=
  match c.cache.find? (fun p => p.1 == k) with
  | none => (none, { c with misses := c.misses + 1 })
  | some (_, e) =>
    if now > e.expiresAt then
      (none, { c with cache := c.cache.filter (fun p => ¬ (p.1 == k)), misses := c.misses + 1 })
    else
      (some e.value, { c with hits := c.hits + 1 })

/-- Embedding of `CacheManager.has`: like `get` but without touching the counters. -/
def CacheManager.has {α : Type} (c : CacheManager α) (k : String) (now : ℤ) :
    Bool × CacheManager α :=
  match c.cache.find? (fun p => p.1 == k) with
  | none => (false, c)
  | some (_, e) =>
    if now > e.expiresAt then
      (false, { c with cache := c.cache.filter (fun p => ¬ (p.1 == k)) })
    else
      (true, c)

/-- Embedding of `CacheManager.clear`: drops every entry and zeroes both counters. -/
def CacheManager.clear {α : Type} (_c : CacheManager α) : CacheManager α := ⟨[], 0, 0⟩

/-- Embedding of `CacheManager.getStats`; `hitRate` is 0 when there was no access. -/
def CacheManager.getStats {α : Type} (c : CacheManager α) : CacheStats :=
  let total := c.hits + c.misses
  ⟨c.hits, c.misses, c.cache.length, if total > 0 then (c.hits : ℚ) / (total : ℚ) else 0⟩

/-- Embedding of `CacheManager.resetStats`. -/
def CacheManager.resetStats {α : Type} (c : CacheManager α) : CacheManager α :=
  { c with hits := 0, misses := 0 }

theorem find?_mapSet_self {α : Type} (l : List (String × CacheEntry α)) (k : String)
    (e : CacheEntry α) : (mapSet l k e).find? (fun p => p.1 == k) = some (k, e) := by
  induction l with
  | nil => simp [mapSet, List.find?_cons]
  | cons p ps ih =>
    unfold mapSet
    by_cases h : p.1 == k
    · rw [if_pos h, List.find?_cons]
      simp
    · rw [if_neg h, List.find?_cons]
      simp only [h]
      exact ih

theorem find?_mapSet_other {α : Type} (l : List (String × CacheEntry α)) (k k' : String)
    (e : CacheEntry α) (hne : k' ≠ k) :
    (mapSet l k e).find? (fun p => p.1 == k') = l.find? (fun p => p.1 == k') := by
  have hkk : (k == k') = false := by simp [Ne.symm hne]
  induction l with
  | nil => simp [mapSet, List.find?_cons, hkk]
  | cons p ps ih =>
    unfold mapSet
    by_cases h : p.1 == k
    · have hp : p.1 = k := by simpa using h
      rw [if_pos h, List.find?_cons, List.find?_cons, hkk, hp, hkk]
    · rw [if_neg h, List.find?_cons, List.find?_cons]
      by_cases h' : p.1 == k'
      · rw [h']
      · simp only [Bool.not_eq_true] at h'
        rw [h']
        exact ih

theorem find?_filter_self {α : Type} (l : List (String × CacheEntry α)) (k : String) :
    (l.filter (fun p => ¬ (p.1 == k))).find? (fun p => p.1 == k) = none := by
  rw [List.find?_eq_none]
  intro x hx
  have := List.of_mem_filter hx
  simpa using this

theorem find?_filter_other {α : Type} (l : List (String × CacheEntry α)) (k k' : String)
    (hne : k' ≠ k) :
    (l.filter (fun p => ¬ (p.1 == k))).find? (fun p => p.1 == k') =
      l.find? (fun p => p.1 == k') := by
  induction l with
  | nil => simp
  | cons p ps ih =>
    by_cases h : p.1 == k
    · have hp : p.1 = k := by simpa using h
      have hk' : (p.1 == k') = false := by simp [hp, Ne.symm hne]
      rw [List.filter_cons_of_neg (by simp [h]), List.find?_cons, hk']
      exact ih
    · rw [List.filter_cons_of_pos (by simp [h]), List.find?_cons, List.find?_cons]
      by_cases h' : p.1 == k'
      · rw [h']
      · simp only [Bool.not_eq_true] at h'
        rw [h']
        exact ih

/-- C8 (amended): for every nonzero TTL t, after `set(k, v, t)` at time T the
entry is returned by `get`/`has` at any time up to and including T + t, and at
any time strictly after T + t both return absent and remove the entry on that
read (lazy eviction). A TTL of exactly 0 is excluded: `ttl || defaultTTL` sends
it to the 5-minute default. -/
theorem cache_ttl_lazy_expiry {α : Type} (c : CacheManager α) (k : String) (v : α)
    (t now q : ℤ) (ht : t ≠ 0) :
    (q ≤ now + t →
      ((c.set k v (some t) now).get k q).1 = some v ∧
      ((c.set k v (some t) now).has k q).1 = true) ∧
    (now + t < q →
      ((c.set k v (some t) now).get k q).1 = none ∧
      (((c.set k v (some t) now).get k q).2).findEntry k = none ∧
      ((c.set k v (some t) now).has k q).1 = false ∧
      (((c.set k v (some t) now).has k q).2).findEntry k = none) := by
  have hf : ((c.set k v (some t) now).cache).find? (fun p => p.1 == k) =
      some (k, ⟨v, now + t⟩) := by
    unfold CacheManager.set
    simp only [if_neg ht]
    exact find?_mapSet_self c.cache k ⟨v, now + t⟩
  constructor
  · intro hq
    have hexp : ¬ q > now + t := not_lt.mpr hq
    constructor
    · unfold CacheManager.get
      rw [hf]
      dsimp only
      rw [if_neg hexp]
    · unfold CacheManager.has
      rw [hf]
      dsimp only
      rw [if_neg hexp]
  · intro hq
    have hexp : q > now + t := hq
    refine ⟨?_, ?_, ?_, ?_⟩
    · unfold CacheManager.get
      rw [hf]
      dsimp only
      rw [if_pos hexp]
    · unfold CacheManager.get
      rw [hf]
      dsimp only
      rw [if_pos hexp]
      unfold CacheManager.findEntry
      dsimp only
      rw [find?_filter_self]
      rfl
    · unfold CacheManager.has
      rw [hf]
      dsimp only
      rw [if_pos hexp]
    · unfold CacheManager.has
      rw [hf]
      dsimp only
      rw [if_pos hexp]
      unfold CacheManager.findEntry
      dsimp only
      rw [find?_filter_self]
      rfl

/-- Witness for the amended C8: a value set at time 0 with TTL 100 is present at
time 100 and absent (and evicted) at time 101. -/
theorem cache_ttl_lazy_expiry_witness :
    ((((CacheManager.empty : CacheManager Bool).set "k" true (some 100) 0).get "k" 100).1
        = some true ∧
      (((CacheManager.empty : CacheManager Bool).set "k" true (some 100) 0).has "k" 100).1
        = true) ∧
    ((((CacheManager.empty : CacheManager Bool).set "k" true (some 100) 0).get "k" 101).1
        = none ∧
      ((((CacheManager.empty : CacheManager Bool).set "k" true (some 100) 0).get "k" 101).2).findEntry "k"
        = none ∧
      (((CacheManager.empty : CacheManager Bool).set "k" true (some 100) 0).has "k" 101).1
        = false ∧
      ((((CacheManager.empty : CacheManager Bool).set "k" true (some 100) 0).has "k" 101).2).findEntry "k"
        = none) :=
  ⟨(cache_ttl_lazy_expiry CacheManager.empty "k" true 100 0 100 (by decide)).1 (by decide),
    (cache_ttl_lazy_expiry CacheManager.empty "k" true 100 0 101 (by decide)).2 (by decide)⟩

/-- Counterexample for C8 as stated: with TTL exactly 0, the entry set at time 0
is still returned strictly after time 0 + 0 (here at time 1), because
`ttl || this.defaultTTL` treats 0 as unset and applies the 5-minute default. -/
theorem cache_ttl_zero_cx :
    ((((CacheManager.empty : CacheManager Bool).set "k" true (some 0) 0).get "k" 1).1
      = some true) := by
  decide

/-- C10: `clear()` removes every entry and also resets the statistics counters,
so immediately after it `getStats` reports hits = 0, misses = 0, size = 0 and
hitRate = 0. -/
theorem cache_clear_resets_stats {α : Type} (c : CacheManager α) :
    (c.clear).cache = [] ∧ (c.clear).getStats = ⟨0, 0, 0, 0⟩ :=
  ⟨rfl, rfl⟩

/- ===================== shipping-service.ts: data model ===================== -/

/-- Warehouse row as selected by the service (`id, name, latitude, longitude`). -/
structure Warehouse where
  id : String
  name : String
  latitude : ℚ
  longitude : ℚ

/-- Seller row as selected by the service. -/
structure Seller where
  id : String
  name : String
  latitude : ℚ
  longitude : ℚ

/-- Customer row as selected by the service. -/
structure Customer where
  id : String
  name : String
  latitude : ℚ
  longitude : ℚ

/-- Product row (`weight_kg`). -/
structure Product where
  id : String
  weight_kg : ℚ

/-- Delivery-speed configuration row (`speed_type, base_charge, extra_charge_per_kg`).
In the database schema `base_charge` is `DECIMAL(10,2)` and `extra_charge_per_kg`
is `DECIMAL(10,4)`. -/
structure DeliverySpeedConfig where
  speed_type : String
  base_charge : ℚ
  extra_charge_per_kg : ℚ

/-- Result record of `findNearestWarehouse`. -/
structure NearestWarehouseResult where
  warehouseId : String
  warehouseLat : ℚ
  warehouseLong : ℚ
  warehouseName : String
  distance_km : ℝ

/-- Breakdown part of a `ShippingChargeResult`. -/
structure ChargeBreakdown where
  baseCharge : ℝ
  transportCharge : ℝ
  expressCharge : ℝ

/-- Result record of `calculateShippingCharge`. -/
structure ShippingChargeResult where
  shippingCharge : ℝ
  transportMode : String
  distance_km : ℝ
  weight_kg : ℚ
  breakdown : ChargeBreakdown

/-- Result record of `calculateCompleteShipping`. -/
structure CompleteShippingResult where
  shippingCharge : ℝ
  warehouseId : String
  warehouseLat : ℚ
  warehouseLong : ℚ
  warehouseName : String
  transportMode : String
  distance_km : ℝ
  weight_kg : ℚ
  breakdown : ChargeBreakdown

/-- Read-only entity store consumed by the service (the Supabase queries). -/
structure Store where
  getSellerById : String → Option Seller
  getWarehouseById : String → Option Warehouse
  listActiveWarehouses : List Warehouse
  getCustomerById : String → Option Customer
  getDeliverySpeedConfig : String → Option DeliverySpeedConfig
  getProductById : String → Option Product

/- ===================== pricing section of calculateShippingCharge ===================== -/

/-- Pricing tail of `calculateShippingCharge` (lines computing the charges and
assembling the result): select the transport mode for the distance, then
`transportCharge = distance * rate * weightKg`,
`expressCharge = deliverySpeed === 'express' ? extra_charge_per_kg * weightKg : 0`,
`totalCharge = baseCharge + transportCharge + expressCharge`, and round the
total, the distance, the transport charge and the express charge independently
to 2 decimals (`baseCharge` is stored unrounded). -/
noncomputable def priceShipping (distance : ℝ) (weightKg : ℚ) (deliverySpeed : String)
    (config : DeliverySpeedConfig) : Except SelectError ShippingChargeResult :=
  match getTransportModeAndRate distance with
  | .error e => .error e
  | .ok (m, rate) =>
    let baseCharge : ℝ := (config.base_charge : ℝ)
    let transportCharge : ℝ := distance * rate * (weightKg : ℝ)
    let expressCharge : ℝ :=
      if deliverySpeed = "express" then (config.extra_charge_per_kg : ℝ) * (weightKg : ℝ) else 0
    let totalCharge : ℝ := baseCharge + transportCharge + expressCharge
    .ok { shippingCharge := round2R totalCharge,
          transportMode := m,
          distance_km := round2R distance,
          weight_kg := weightKg,
          breakdown := { baseCharge := baseCharge,
                         transportCharge := round2R transportCharge,
                         expressCharge := round2R expressCharge } }

theorem round2R_zero : round2R 0 = 0 := by
  unfold round2R
  norm_num

theorem abs_round2R_sub (x : ℝ) : |round2R x - x| ≤ 1 / 200 := by
  have h : |x * 100 - round (x * 100)| ≤ 1 / 2 := abs_sub_round (x * 100)
  rw [abs_sub_comm] at h
  have heq : round2R x - x = (((round (x * 100) : ℤ) : ℝ) - x * 100) / 100 := by
    unfold round2R
    ring
  rw [heq, abs_div, abs_of_pos (show (0:ℝ) < 100 by norm_num)]
  linarith

/-- Key bound behind the "within 0.01" consequence of C1: when the base charge
lies on the 2-decimal grid (as its `DECIMAL(10,2)` database column guarantees),
the independently rounded total differs from the sum of the independently
rounded breakdown fields by at most 0.01. -/
theorem round2_total_vs_fields (B T E : ℝ) (hb : ∃ k : ℤ, B * 100 = (k : ℝ)) :
    |round2R (B + T + E) - (B + round2R T + round2R E)| ≤ 1 / 100 := by
  obtain ⟨k, hk⟩ := hb
  have hB : B = (k : ℝ) / 100 := by linarith
  have hD : round2R (B + T + E) - (B + round2R T + round2R E) =
      ((round ((B + T + E) * 100) - k - round (T * 100) - round (E * 100) : ℤ) : ℝ) / 100 := by
    unfold round2R
    push_cast
    rw [hB]
    ring
  have h1 := abs_le.mp (abs_sub_round ((B + T + E) * 100))
  have h2 := abs_le.mp (abs_sub_round (T * 100))
  have h3 := abs_le.mp (abs_sub_round (E * 100))
  have habs : |((round ((B + T + E) * 100) - k - round (T * 100) - round (E * 100) : ℤ) : ℝ)|
      ≤ 3 / 2 := by
    rw [abs_le]
    push_cast
    constructor <;> linarith [h1.1, h1.2, h2.1, h2.2, h3.1, h3.2]
  have hn1 : |(round ((B + T + E) * 100) - k - round (T * 100) - round (E * 100) : ℤ)| ≤ 1 := by
    by_contra hc
    push_neg at hc
    have h2le : (1 : ℤ) + 1 ≤ |round ((B + T + E) * 100) - k - round (T * 100) - round (E * 100)| :=
      Int.add_one_le_iff.mpr hc
    have hcast : ((1 : ℤ) + 1 : ℝ) ≤
        (|round ((B + T + E) * 100) - k - round (T * 100) - round (E * 100)| : ℤ) := by
      exact_mod_cast h2le
    rw [Int.cast_abs] at hcast
    norm_num at hcast
    push_cast at habs
    linarith
  have hfin : |((round ((B + T + E) * 100) - k - round (T * 100) - round (E * 100) : ℤ) : ℝ)|
      ≤ 1 := by
    rw [← Int.cast_abs]
    exact_mod_cast hn1
  rw [hD, abs_div, abs_of_pos (show (0:ℝ) < 100 by norm_num)]
  linarith

/-- C1: for every distance d >= 0, weight w > 0 and delivery-speed config
(whose base charge is a 2-decimal value, as its `DECIMAL(10,2)` column and the
spec's design note state), the pricing section of `calculateShippingCharge`
returns a breakdown with `transportCharge = round2(d * rate * w)`,
`expressCharge = round2(extra * w)` for express and 0 otherwise,
`baseCharge` unrounded, and a `shippingCharge` rounded from the unrounded
components; consequently the total equals the sum of the breakdown fields
within 0.01. -/
theorem pricing_breakdown (d : ℝ) (w : ℚ) (speed : String) (config : DeliverySpeedConfig)
    (hd : 0 ≤ d) (hw : 0 < w) (hb : ∃ k : ℤ, config.base_charge * 100 = (k : ℚ)) :
    ∃ m r res,
      getTransportModeAndRate d = .ok (m, r) ∧
      priceShipping d w speed config = .ok res ∧
      res.breakdown.baseCharge = (config.base_charge : ℝ) ∧
      res.breakdown.transportCharge = round2R (d * r * (w : ℝ)) ∧
      res.breakdown.expressCharge =
        (if speed = "express" then round2R ((config.extra_charge_per_kg : ℝ) * (w : ℝ)) else 0) ∧
      res.shippingCharge = round2R ((config.base_charge : ℝ) + d * r * (w : ℝ) +
        (if speed = "express" then (config.extra_charge_per_kg : ℝ) * (w : ℝ) else 0)) ∧
      |res.shippingCharge - (res.breakdown.baseCharge + res.breakdown.transportCharge +
        res.breakdown.expressCharge)| ≤ 1 / 100 := by
  obtain ⟨⟨m, r⟩, hmr⟩ := getTransportModeAndRate_total hd
  have hps : priceShipping d w speed config = .ok
      { shippingCharge := round2R ((config.base_charge : ℝ) + d * r * (w : ℝ) +
          (if speed = "express" then (config.extra_charge_per_kg : ℝ) * (w : ℝ) else 0)),
        transportMode := m,
        distance_km := round2R d,
        weight_kg := w,
        breakdown := { baseCharge := (config.base_charge : ℝ),
                       transportCharge := round2R (d * r * (w : ℝ)),
                       expressCharge := round2R (if speed = "express" then
                         (config.extra_charge_per_kg : ℝ) * (w : ℝ) else 0) } } := by
    unfold priceShipping
    rw [hmr]
  refine ⟨m, r, _, hmr, hps, rfl, rfl, ?_, rfl, ?_⟩
  · dsimp only
    by_cases hs : speed = "express"
    · rw [if_pos hs, if_pos hs]
    · rw [if_neg hs, if_neg hs, round2R_zero]
  · dsimp only
    obtain ⟨k, hk⟩ := hb
    exact round2_total_vs_fields (config.base_charge : ℝ) (d * r * (w : ℝ))
      (if speed = "express" then (config.extra_charge_per_kg : ℝ) * (w : ℝ) else 0)
      ⟨k, by exact_mod_cast hk⟩

/-- Witness for C1: standard delivery, 50 km, 10 kg, base charge 10. -/
theorem pricing_breakdown_witness :
    ∃ m r res,
      getTransportModeAndRate 50 = .ok (m, r) ∧
      priceShipping 50 10 "standard" ⟨"standard", 10, 0⟩ = .ok res ∧
      res.breakdown.baseCharge = ((10 : ℚ) : ℝ) ∧
      res.breakdown.transportCharge = round2R (50 * r * ((10 : ℚ) : ℝ)) ∧
      res.breakdown.expressCharge =
        (if "standard" = "express" then round2R (((0 : ℚ) : ℝ) * ((10 : ℚ) : ℝ)) else 0) ∧
      res.shippingCharge = round2R (((10 : ℚ) : ℝ) + 50 * r * ((10 : ℚ) : ℝ) +
        (if "standard" = "express" then ((0 : ℚ) : ℝ) * ((10 : ℚ) : ℝ) else 0)) ∧
      |res.shippingCharge - (res.breakdown.baseCharge + res.breakdown.transportCharge +
        res.breakdown.expressCharge)| ≤ 1 / 100 :=
  pricing_breakdown 50 10 "standard" ⟨"standard", 10, 0⟩ (by norm_num) (by norm_num)
    ⟨1000, by norm_num⟩

/- ===================== shipping-service.ts: operations ===================== -/

/-- Values stored in the shared cache by the three service operations. -/
inductive CacheValue
  | nearest (r : NearestWarehouseResult)
  | charge (r : ShippingChargeResult)
  | complete (r : CompleteShippingResult)

/-- Cache key `nearest_warehouse:seller:<sellerId>` of `CacheKeyBuilder`. -/
def CacheKeyBuilder.nearestWarehouse (sellerId : String) : String :=
  "nearest_warehouse:seller:" ++ sellerId

/-- Cache key `shipping_charge:<warehouseId>:<customerId>:<deliverySpeed>[:<productId>]`. -/
def CacheKeyBuilder.shippingCharge (warehouseId customerId deliverySpeed : String)
    (productId : Option String) : String :=
  let base := "shipping_charge:" ++ warehouseId ++ ":" ++ customerId ++ ":" ++ deliverySpeed
  match productId with
  | some p => base ++ ":" ++ p
  | none => base

/-- Cache key `calculation:<sellerId>:<customerId>:<deliverySpeed>[:<productId>]`. -/
def CacheKeyBuilder.calculation (sellerId customerId deliverySpeed : String)
    (productId : Option String) : String :=
  let base := "calculation:" ++ sellerId ++ ":" ++ customerId ++ ":" ++ deliverySpeed
  match productId with
  | some p => base ++ ":" ++ p
  | none => base

/-- Error surface of the shipping service. Custom error classes of
`error-handler.ts` get their own constructors; a plain `throw new Error(msg)` of
the source is `genericError msg`. The `castHit` constructor stands for the one
point the typed model cannot express literally: a cache hit whose stored value
has a different shape than the unchecked cast `cache.get<T>` assumes (never
reachable through the namespaced keys the service itself writes). -/
inductive ShipError
  | resourceNotFound (resourceType resourceId : String)
  | unsupportedLocation (message : String)
  | noWarehousesFound
  | genericError (message : String)
  | castHit

/-- Nearest-warehouse loop of `findNearestWarehouse`: walk the warehouse list
keeping the current minimum distance, replacing it only on a strictly smaller
distance (`if (distance < minDistance)`), starting from `minDistance = Infinity`
(modelled by a `none` accumulator, since every real distance is below Infinity).
Any `calculateDistance` throw propagates. -/
noncomputable def scanNearest (sLat sLon : ℚ) :
    List Warehouse → Option (Warehouse × ℝ) → Except String (Option (Warehouse × ℝ))
  | [], acc => .ok acc
  | w :: ws, acc =>
    match calculateDistance sLat sLon w.latitude w.longitude with
    | .error e => .error e
    | .ok d =>
      match acc with
      | none => scanNearest sLat sLon ws (some (w, d))
      | some (bw, bd) =>
        if d < bd then scanNearest sLat sLon ws (some (w, d))
        else scanNearest sLat sLon ws (some (bw, bd))

/-- Embedding of `ShippingService.findNearestWarehouse`. The cache state and the
current time are explicit; the result is paired with the updated cache. -/
noncomputable def findNearestWarehouse (store : Store) (sellerId : String)
    (c : CacheManager CacheValue) (now : ℤ) :
    Except ShipError NearestWarehouseResult × CacheManager CacheValue :=
  match CacheManager.get c (CacheKeyBuilder.nearestWarehouse sellerId) now with
  | (some (CacheValue.nearest r), c1) => (.ok r, c1)
  | (some _, c1) => (.error .castHit, c1)
  | (none, c1) =>
    match store.getSellerById sellerId with
    | none => (.error (.resourceNotFound "Seller" sellerId), c1)
    | some seller =>
      if isValidCoordinate seller.latitude seller.longitude = false then
        (.error (.unsupportedLocation "Invalid seller coordinates"), c1)
      else
        match store.listActiveWarehouses with
        | [] => (.error .noWarehousesFound, c1)
        | w :: ws =>
          match scanNearest seller.latitude seller.longitude (w :: ws) none with
          | .error msg => (.error (.genericError msg), c1)
          | .ok none => (.error (.genericError "Could not determine nearest warehouse"), c1)
          | .ok (some (nw, minD)) =>
            let result : NearestWarehouseResult :=
              ⟨nw.id, nw.latitude, nw.longitude, nw.name, round2R minD⟩
            (.ok result,
              CacheManager.set c1 (CacheKeyBuilder.nearestWarehouse sellerId)
                (.nearest result) (some 300000) now)

/-- Embedding of `ShippingService.calculateShippingCharge`: resolve warehouse,
customer, delivery-speed config and optional product weight (defaulting to 1 kg,
also when the product lookup comes back empty), compute the distance, then price
through `priceShipping` and cache the result for 2 minutes. -/
noncomputable def calculateShippingCharge (store : Store)
    (warehouseId customerId deliverySpeed : String) (productId : Option String)
    (c : CacheManager CacheValue) (now : ℤ) :
    Except ShipError ShippingChargeResult × CacheManager CacheValue :=
  match CacheManager.get c
      (CacheKeyBuilder.shippingCharge warehouseId customerId deliverySpeed productId) now with
  | (some (CacheValue.charge r), c1) => (.ok r, c1)
  | (some _, c1) => (.error .castHit, c1)
  | (none, c1) =>
    match store.getWarehouseById warehouseId with
    | none => (.error (.resourceNotFound "Warehouse" warehouseId), c1)
    | some warehouse =>
      if isValidCoordinate warehouse.latitude warehouse.longitude = false then
        (.error (.unsupportedLocation "Invalid warehouse coordinates"), c1)
      else
        match store.getCustomerById customerId with
        | none => (.error (.resourceNotFound "Customer" customerId), c1)
        | some customer =>
          if isValidCoordinate customer.latitude customer.longitude = false then
            (.error (.unsupportedLocation "Invalid customer coordinates"), c1)
          else
            match store.getDeliverySpeedConfig deliverySpeed with
            | none =>
              (.error (.genericError ("Delivery speed configuration not found: "
                ++ deliverySpeed)), c1)
            | some deliveryConfig =>
              let weightKg : ℚ :=
                match productId with
                | none => 1
                | some pid =>
                  match store.getProductById pid with
                  | some product => product.weight_kg
                  | none => 1
              match calculateDistance warehouse.latitude warehouse.longitude
                  customer.latitude customer.longitude with
              | .error msg => (.error (.genericError msg), c1)
              | .ok distance =>
                match priceShipping distance weightKg deliverySpeed deliveryConfig with
                | .error SelectError.negativeDistance =>
                  (.error (.genericError "Distance cannot be negative"), c1)
                | .error SelectError.noTransportMode =>
                  (.error (.genericError "No transport mode available"), c1)
                | .ok result =>
                  (.ok result,
                    CacheManager.set c1
                      (CacheKeyBuilder.shippingCharge warehouseId customerId
                        deliverySpeed productId)
                      (.charge result) (some 120000) now)

/-- Embedding of `ShippingService.calculateCompleteShipping`: cache check on the
composite key, then `findNearestWarehouse`, then `calculateShippingCharge` from
that warehouse, merged and cached for 2 minutes. -/
noncomputable def calculateCompleteShipping (store : Store)
    (sellerId customerId deliverySpeed : String) (productId : Option String)
    (c : CacheManager CacheValue) (now : ℤ) :
    Except ShipError CompleteShippingResult × CacheManager CacheValue :=
  match CacheManager.get c
      (CacheKeyBuilder.calculation sellerId customerId deliverySpeed productId) now with
  | (some (CacheValue.complete r), c1) => (.ok r, c1)
  | (some _, c1) => (.error .castHit, c1)
  | (none, c1) =>
    match findNearestWarehouse store sellerId c1 now with
    | (.error e, c2) => (.error e, c2)
    | (.ok nw, c2) =>
      match calculateShippingCharge store nw.warehouseId customerId deliverySpeed
          productId c2 now with
      | (.error e, c3) => (.error e, c3)
      | (.ok sc, c3) =>
        let result : CompleteShippingResult :=
          ⟨sc.shippingCharge, nw.warehouseId, nw.warehouseLat, nw.warehouseLong,
            nw.warehouseName, sc.transportMode, sc.distance_km, sc.weight_kg, sc.breakdown⟩
        (.ok result,
          CacheManager.set c3
            (CacheKeyBuilder.calculation sellerId customerId deliverySpeed productId)
            (.complete result) (some 120000) now)

/-- Pure version of the nearest-warehouse loop, used to state its correctness:
identical to `scanNearest` once every coordinate involved is valid. -/
noncomputable def bestScan (sLat sLon : ℚ) :
    List Warehouse → Option (Warehouse × ℝ) → Option (Warehouse × ℝ)
  | [], acc => acc
  | w :: ws, acc =>
    match acc with
    | none => bestScan sLat sLon ws (some (w, haversineR sLat sLon w.latitude w.longitude))
    | some (bw, bd) =>
      if haversineR sLat sLon w.latitude w.longitude < bd then
        bestScan sLat sLon ws (some (w, haversineR sLat sLon w.latitude w.longitude))
      else bestScan sLat sLon ws (some (bw, bd))

/-- Distance from the seller point to a warehouse, as computed inside the loop. -/
noncomputable def sellerDist (sLat sLon : ℚ) (w : Warehouse) : ℝ :=
  haversineR (sLat : ℝ) (sLon : ℝ) (w.latitude : ℝ) (w.longitude : ℝ)

theorem bestScan_cons_none (sLat sLon : ℚ) (w : Warehouse) (ws : List Warehouse) :
    bestScan sLat sLon (w :: ws) none =
      bestScan sLat sLon ws (some (w, sellerDist sLat sLon w)) := by
  conv_lhs => unfold bestScan
  rfl

theorem bestScan_cons_some (sLat sLon : ℚ) (w : Warehouse) (ws : List Warehouse)
    (bw : Warehouse) (bd : ℝ) :
    bestScan sLat sLon (w :: ws) (some (bw, bd)) =
      if sellerDist sLat sLon w < bd then
        bestScan sLat sLon ws (some (w, sellerDist sLat sLon w))
      else bestScan sLat sLon ws (some (bw, bd)) := by
  conv_lhs => unfold bestScan
  rfl

theorem scanNearest_eq_bestScan (sLat sLon : ℚ) (l : List Warehouse)
    (acc : Option (Warehouse × ℝ)) (hs : isValidCoordinate sLat sLon = true)
    (hl : ∀ w ∈ l, isValidCoordinate w.latitude w.longitude = true) :
    scanNearest sLat sLon l acc = .ok (bestScan sLat sLon l acc) := by
  induction l generalizing acc with
  | nil => rfl
  | cons w ws ih =>
    have hw : isValidCoordinate w.latitude w.longitude = true :=
      hl w (List.mem_cons_self w ws)
    have hcd : calculateDistance sLat sLon w.latitude w.longitude =
        .ok (haversineR (sLat : ℝ) (sLon : ℝ) (w.latitude : ℝ) (w.longitude : ℝ)) := by
      unfold calculateDistance
      rw [hs, hw]
      rfl
    have hws : ∀ x ∈ ws, isValidCoordinate x.latitude x.longitude = true :=
      fun x hx => hl x (List.mem_cons_of_mem w hx)
    conv_lhs => unfold scanNearest
    rw [hcd]
    dsimp only
    cases acc with
    | none =>
      rw [bestScan_cons_none]
      exact ih _ hws
    | some p =>
      obtain ⟨bw, bd⟩ := p
      rw [bestScan_cons_some]
      dsimp only
      by_cases hlt : haversineR (sLat : ℝ) (sLon : ℝ) (w.latitude : ℝ) (w.longitude : ℝ) < bd
      · rw [if_pos hlt, if_pos (show sellerDist sLat sLon w < bd from hlt)]
        exact ih _ hws
      · rw [if_neg hlt, if_neg (show ¬ sellerDist sLat sLon w < bd from hlt)]
        exact ih _ hws

/-- Characterization of the accumulator loop: starting from a concrete best pair,
the result either keeps the accumulator (nothing strictly better in the list) or
is the first list element attaining a strictly better minimum. -/
theorem bestScan_acc_spec (sLat sLon : ℚ) (l : List Warehouse) :
    ∀ (bw : Warehouse) (bd : ℝ),
      (bestScan sLat sLon l (some (bw, bd)) = some (bw, bd) ∧
        ∀ w ∈ l, bd ≤ sellerDist sLat sLon w) ∨
      (∃ i : ℕ, ∃ hi : i < l.length,
        bestScan sLat sLon l (some (bw, bd)) =
          some (l.get ⟨i, hi⟩, sellerDist sLat sLon (l.get ⟨i, hi⟩)) ∧
        sellerDist sLat sLon (l.get ⟨i, hi⟩) < bd ∧
        (∀ w ∈ l, sellerDist sLat sLon (l.get ⟨i, hi⟩) ≤ sellerDist sLat sLon w) ∧
        (∀ j : ℕ, ∀ hj : j < l.length, j < i →
          sellerDist sLat sLon (l.get ⟨i, hi⟩) < sellerDist sLat sLon (l.get ⟨j, hj⟩))) := by
  induction l with
  | nil =>
    intro bw bd
    left
    exact ⟨rfl, by simp⟩
  | cons w ws ih =>
    intro bw bd
    rw [bestScan_cons_some]
    by_cases hlt : sellerDist sLat sLon w < bd
    · rw [if_pos hlt]
      rcases ih w (sellerDist sLat sLon w) with ⟨heq, hmin⟩ | ⟨i, hi, heq, hless, hmin, hfirst⟩
      · right
        refine ⟨0, by simp, ?_, ?_, ?_, ?_⟩
        · rw [heq]
          rfl
        · exact hlt
        · intro x hx
          rcases List.mem_cons.mp hx with rfl | hx'
          · exact le_refl _
          · exact hmin x hx'
        · intro j hj hj0
          omega
      · right
        refine ⟨i + 1, Nat.succ_lt_succ hi, ?_, ?_, ?_, ?_⟩
        · rw [heq]
          rfl
        · exact hless.trans hlt
        · intro x hx
          rcases List.mem_cons.mp hx with rfl | hx'
          · exact hless.le
          · exact hmin x hx'
        · intro j hj hji
          match j, hj with
          | 0, hj => exact hless
          | j' + 1, hj =>
            exact hfirst j' (Nat.lt_of_succ_lt_succ hj) (Nat.lt_of_succ_lt_succ hji)
    · rw [if_neg hlt]
      have hge : bd ≤ sellerDist sLat sLon w := not_lt.mp hlt
      rcases ih bw bd with ⟨heq, hmin⟩ | ⟨i, hi, heq, hless, hmin, hfirst⟩
      · left
        refine ⟨heq, ?_⟩
        intro x hx
        rcases List.mem_cons.mp hx with rfl | hx'
        · exact hge
        · exact hmin x hx'
      · right
        refine ⟨i + 1, Nat.succ_lt_succ hi, ?_, ?_, ?_, ?_⟩
        · rw [heq]
          rfl
        · exact hless
        · intro x hx
          rcases List.mem_cons.mp hx with rfl | hx'
          · exact hless.le.trans hge
          · exact hmin x hx'
        · intro j hj hji
          match j, hj with
          | 0, hj => exact lt_of_lt_of_le hless hge
          | j' + 1, hj =>
            exact hfirst j' (Nat.lt_of_succ_lt_succ hj) (Nat.lt_of_succ_lt_succ hji)

/-- Top-level characterization used by C3: on a non-empty list the loop returns
the first element attaining the minimal distance, along with that distance. -/
theorem bestScan_spec (sLat sLon : ℚ) (w : Warehouse) (ws : List Warehouse) :
    ∃ i : ℕ, ∃ hi : i < (w :: ws).length,
      bestScan sLat sLon (w :: ws) none =
        some ((w :: ws).get ⟨i, hi⟩, sellerDist sLat sLon ((w :: ws).get ⟨i, hi⟩)) ∧
      (∀ x ∈ w :: ws, sellerDist sLat sLon ((w :: ws).get ⟨i, hi⟩) ≤ sellerDist sLat sLon x) ∧
      (∀ j : ℕ, ∀ hj : j < (w :: ws).length, j < i →
        sellerDist sLat sLon ((w :: ws).get ⟨i, hi⟩) <
          sellerDist sLat sLon ((w :: ws).get ⟨j, hj⟩)) := by
  rw [bestScan_cons_none]
  rcases bestScan_acc_spec sLat sLon ws w (sellerDist sLat sLon w) with
    ⟨heq, hmin⟩ | ⟨i, hi, heq, hless, hmin, hfirst⟩
  · refine ⟨0, by simp, ?_, ?_, ?_⟩
    · rw [heq]
      rfl
    · intro x hx
      rcases List.mem_cons.mp hx with rfl | hx'
      · exact le_refl _
      · exact hmin x hx'
    · intro j hj hj0
      omega
  · refine ⟨i + 1, Nat.succ_lt_succ hi, ?_, ?_, ?_⟩
    · rw [heq]
      rfl
    · intro x hx
      rcases List.mem_cons.mp hx with rfl | hx'
      · exact hless.le
      · exact hmin x hx'
    · intro j hj hji
      match j, hj with
      | 0, hj => exact hless
      | j' + 1, hj =>
        exact hfirst j' (Nat.lt_of_succ_lt_succ hj) (Nat.lt_of_succ_lt_succ hji)

/-- C3: for every seller with valid coordinates and every non-empty list of
active warehouses (whose coordinates are valid, per the data-model invariant on
stored locations), `findNearestWarehouse` returns the warehouse whose haversine
distance to the seller is minimal over the list, ties broken in favor of the
first-encountered warehouse in the supplied ordering, and reports that minimal
distance rounded to 2 decimal places. Stated on a fresh cache. -/
theorem nearest_warehouse_minimal (store : Store) (sellerId : String) (seller : Seller)
    (now : ℤ) (w : Warehouse) (ws : List Warehouse)
    (hSeller : store.getSellerById sellerId = some seller)
    (hValid : isValidCoordinate seller.latitude seller.longitude = true)
    (hList : store.listActiveWarehouses = w :: ws)
    (hWValid : ∀ x ∈ w :: ws, isValidCoordinate x.latitude x.longitude = true) :
    ∃ i : ℕ, ∃ hi : i < (w :: ws).length,
      (findNearestWarehouse store sellerId CacheManager.empty now).1 =
        .ok ⟨((w :: ws).get ⟨i, hi⟩).id, ((w :: ws).get ⟨i, hi⟩).latitude,
          ((w :: ws).get ⟨i, hi⟩).longitude, ((w :: ws).get ⟨i, hi⟩).name,
          round2R (sellerDist seller.latitude seller.longitude ((w :: ws).get ⟨i, hi⟩))⟩ ∧
      (∀ x ∈ w :: ws, sellerDist seller.latitude seller.longitude ((w :: ws).get ⟨i, hi⟩) ≤
        sellerDist seller.latitude seller.longitude x) ∧
      (∀ j : ℕ, ∀ hj : j < (w :: ws).length, j < i →
        sellerDist seller.latitude seller.longitude ((w :: ws).get ⟨i, hi⟩) <
          sellerDist seller.latitude seller.longitude ((w :: ws).get ⟨j, hj⟩)) := by
  obtain ⟨i, hi, heq, hmin, hfirst⟩ := bestScan_spec seller.latitude seller.longitude w ws
  have hscan : scanNearest seller.latitude seller.longitude (w :: ws) none =
      .ok (some ((w :: ws).get ⟨i, hi⟩,
        sellerDist seller.latitude seller.longitude ((w :: ws).get ⟨i, hi⟩))) := by
    rw [scanNearest_eq_bestScan seller.latitude seller.longitude (w :: ws) none hValid hWValid,
      heq]
  refine ⟨i, hi, ?_, hmin, hfirst⟩
  unfold findNearestWarehouse
  have hget : CacheManager.get (CacheManager.empty : CacheManager CacheValue)
      (CacheKeyBuilder.nearestWarehouse sellerId) now = (none, ⟨[], 0, 1⟩) := rfl
  rw [hget]
  dsimp only
  rw [hSeller]
  dsimp only
  rw [hValid, if_neg (by simp : ¬ (true = false)), hList]
  dsimp only
  rw [hscan]

/-- Concrete store used by the C3 witness: one seller and one active warehouse. -/
def c3Store : Store :=
  ⟨fun i => if i = "s1" then some ⟨"s1", "Seller One", 10, 20⟩ else none,
    fun _ => none,
    [⟨"w1", "W1", 11, 21⟩],
    fun _ => none,
    fun _ => none,
    fun _ => none⟩

/-- Witness for C3 on a store with a single active warehouse. -/
theorem nearest_warehouse_minimal_witness :
    ∃ i : ℕ, ∃ hi : i < [(⟨"w1", "W1", 11, 21⟩ : Warehouse)].length,
      (findNearestWarehouse c3Store "s1" CacheManager.empty 0).1 =
        .ok ⟨([(⟨"w1", "W1", 11, 21⟩ : Warehouse)].get ⟨i, hi⟩).id,
          ([(⟨"w1", "W1", 11, 21⟩ : Warehouse)].get ⟨i, hi⟩).latitude,
          ([(⟨"w1", "W1", 11, 21⟩ : Warehouse)].get ⟨i, hi⟩).longitude,
          ([(⟨"w1", "W1", 11, 21⟩ : Warehouse)].get ⟨i, hi⟩).name,
          round2R (sellerDist 10 20 ([(⟨"w1", "W1", 11, 21⟩ : Warehouse)].get ⟨i, hi⟩))⟩ ∧
      (∀ x ∈ [(⟨"w1", "W1", 11, 21⟩ : Warehouse)],
        sellerDist 10 20 ([(⟨"w1", "W1", 11, 21⟩ : Warehouse)].get ⟨i, hi⟩) ≤
          sellerDist 10 20 x) ∧
      (∀ j : ℕ, ∀ hj : j < [(⟨"w1", "W1", 11, 21⟩ : Warehouse)].length, j < i →
        sellerDist 10 20 ([(⟨"w1", "W1", 11, 21⟩ : Warehouse)].get ⟨i, hi⟩) <
          sellerDist 10 20 ([(⟨"w1", "W1", 11, 21⟩ : Warehouse)].get ⟨j, hj⟩)) :=
  nearest_warehouse_minimal c3Store "s1" ⟨"s1", "Seller One", 10, 20⟩ 0
    ⟨"w1", "W1", 11, 21⟩ [] rfl (by decide) rfl
    (by
      intro x hx
      rw [List.mem_singleton] at hx
      subst hx
      decide)

/-- C4: in `calculateShippingCharge`, a supplied productId whose lookup returns
no record does not fail the operation: the weight silently falls back to 1 kg
and pricing proceeds; when the product is found, its `weight_kg` is used.
Stated on a fresh cache, with all other lookups resolving and coordinates valid. -/
theorem product_weight_fallback (store : Store) (warehouseId customerId deliverySpeed : String)
    (pid : String) (warehouse : Warehouse) (customer : Customer)
    (config : DeliverySpeedConfig) (now : ℤ)
    (hW : store.getWarehouseById warehouseId = some warehouse)
    (hWv : isValidCoordinate warehouse.latitude warehouse.longitude = true)
    (hC : store.getCustomerById customerId = some customer)
    (hCv : isValidCoordinate customer.latitude customer.longitude = true)
    (hS : store.getDeliverySpeedConfig deliverySpeed = some config) :
    (store.getProductById pid = none →
      ∃ res, (calculateShippingCharge store warehouseId customerId deliverySpeed
        (some pid) CacheManager.empty now).1 = .ok res ∧ res.weight_kg = 1) ∧
    (∀ product, store.getProductById pid = some product →
      ∃ res, (calculateShippingCharge store warehouseId customerId deliverySpeed
        (some pid) CacheManager.empty now).1 = .ok res ∧
        res.weight_kg = product.weight_kg) := by
  have hd : calculateDistance warehouse.latitude warehouse.longitude
      customer.latitude customer.longitude =
      .ok (haversineR (warehouse.latitude : ℝ) (warehouse.longitude : ℝ)
        (customer.latitude : ℝ) (customer.longitude : ℝ)) := by
    unfold calculateDistance
    rw [hWv, hCv]
    rfl
  have hnn := haversineR_nonneg (warehouse.latitude : ℝ) (warehouse.longitude : ℝ)
    (customer.latitude : ℝ) (customer.longitude : ℝ)
  have hkey : ∀ weightKg : ℚ, ∃ res,
      priceShipping (haversineR (warehouse.latitude : ℝ) (warehouse.longitude : ℝ)
        (customer.latitude : ℝ) (customer.longitude : ℝ)) weightKg deliverySpeed config =
        .ok res ∧ res.weight_kg = weightKg := by
    intro weightKg
    obtain ⟨⟨m, r⟩, hmr⟩ := getTransportModeAndRate_total hnn
    have hps : priceShipping (haversineR (warehouse.latitude : ℝ) (warehouse.longitude : ℝ)
        (customer.latitude : ℝ) (customer.longitude : ℝ)) weightKg deliverySpeed config = .ok
        { shippingCharge := round2R ((config.base_charge : ℝ) +
            haversineR (warehouse.latitude : ℝ) (warehouse.longitude : ℝ)
              (customer.latitude : ℝ) (customer.longitude : ℝ) * r * (weightKg : ℝ) +
            (if deliverySpeed = "express" then
              (config.extra_charge_per_kg : ℝ) * (weightKg : ℝ) else 0)),
          transportMode := m,
          distance_km := round2R (haversineR (warehouse.latitude : ℝ) (warehouse.longitude : ℝ)
            (customer.latitude : ℝ) (customer.longitude : ℝ)),
          weight_kg := weightKg,
          breakdown := { baseCharge := (config.base_charge : ℝ),
                         transportCharge := round2R (haversineR (warehouse.latitude : ℝ)
                           (warehouse.longitude : ℝ) (customer.latitude : ℝ)
                           (customer.longitude : ℝ) * r * (weightKg : ℝ)),
                         expressCharge := round2R (if deliverySpeed = "express" then
                           (config.extra_charge_per_kg : ℝ) * (weightKg : ℝ) else 0) } } := by
      unfold priceShipping
      rw [hmr]
    exact ⟨_, hps, rfl⟩
  constructor
  · intro hnone
    obtain ⟨res, hres, hweight⟩ := hkey 1
    refine ⟨res, ?_, hweight⟩
    unfold calculateShippingCharge
    have hget : CacheManager.get (CacheManager.empty : CacheManager CacheValue)
        (CacheKeyBuilder.shippingCharge warehouseId customerId deliverySpeed (some pid)) now =
        (none, ⟨[], 0, 1⟩) := rfl
    rw [hget]
    dsimp only
    rw [hW]
    dsimp only
    rw [hWv, if_neg (by simp : ¬ (true = false)), hC]
    dsimp only
    rw [hCv, if_neg (by simp : ¬ (true = false)), hS]
    dsimp only
    rw [hnone]
    dsimp only
    rw [hd]
    dsimp only
    rw [hres]
  · intro product hsome
    obtain ⟨res, hres, hweight⟩ := hkey product.weight_kg
    refine ⟨res, ?_, hweight⟩
    unfold calculateShippingCharge
    have hget : CacheManager.get (CacheManager.empty : CacheManager CacheValue)
        (CacheKeyBuilder.shippingCharge warehouseId customerId deliverySpeed (some pid)) now =
        (none, ⟨[], 0, 1⟩) := rfl
    rw [hget]
    dsimp only
    rw [hW]
    dsimp only
    rw [hWv, if_neg (by simp : ¬ (true = false)), hC]
    dsimp only
    rw [hCv, if_neg (by simp : ¬ (true = false)), hS]
    dsimp only
    rw [hsome]
    dsimp only
    rw [hd]
    dsimp only
    rw [hres]

/-- Concrete store used by the C4 witness: warehouse, customer and speed config
resolve; the product table is empty. -/
def c4Store : Store :=
  ⟨fun _ => none,
    fun i => if i = "w1" then some ⟨"w1", "W1", 11, 21⟩ else none,
    [],
    fun i => if i = "c1" then some ⟨"c1", "Customer One", 12, 22⟩ else none,
    fun sp => if sp = "standard" then some ⟨"standard", 10, 0⟩ else none,
    fun _ => none⟩

/-- Witness for C4: a missing product "p1" silently prices at the 1 kg default. -/
theorem product_weight_fallback_witness :
    ∃ res, (calculateShippingCharge c4Store "w1" "c1" "standard"
      (some "p1") CacheManager.empty 0).1 = .ok res ∧ res.weight_kg = 1 :=
  (product_weight_fallback c4Store "w1" "c1" "standard" "p1"
    ⟨"w1", "W1", 11, 21⟩ ⟨"c1", "Customer One", 12, 22⟩ ⟨"standard", 10, 0⟩ 0
    rfl (by decide) rfl (by decide) rfl).1 rfl

/- ===================== cache effects of the service operations ===================== -/

/-- An operation wrote nothing new under key k when every entry found under k
afterwards was already there before. -/
def entryPreserved {α : Type} (c c' : CacheManager α) (k : String) : Prop :=
  ∀ en, c'.findEntry k = some en → c.findEntry k = some en

theorem get_snd_findEntry_other {α : Type} (c : CacheManager α) (k k' : String) (now : ℤ)
    (hne : k' ≠ k) :
    ((CacheManager.get c k now).2).findEntry k' = c.findEntry k' := by
  unfold CacheManager.get
  cases hf : c.cache.find? (fun p => p.1 == k) with
  | none => rfl
  | some p =>
    obtain ⟨ks, e⟩ := p
    dsimp only
    by_cases hexp : now > e.expiresAt
    · rw [if_pos hexp]
      unfold CacheManager.findEntry
      dsimp only
      rw [find?_filter_other c.cache k k' hne]
    · rw [if_neg hexp]
      rfl

theorem get_fst_none_findEntry_none {α : Type} (c : CacheManager α) (k : String) (now : ℤ)
    (h : (CacheManager.get c k now).1 = none) :
    ((CacheManager.get c k now).2).findEntry k = none := by
  unfold CacheManager.get at h ⊢
  cases hf : c.cache.find? (fun p => p.1 == k) with
  | none =>
    unfold CacheManager.findEntry
    dsimp only
    rw [hf]
    rfl
  | some p =>
    obtain ⟨ks, e⟩ := p
    rw [hf] at h
    dsimp only at h
    dsimp only
    by_cases hexp : now > e.expiresAt
    · rw [if_pos hexp]
      unfold CacheManager.findEntry
      dsimp only
      rw [find?_filter_self]
      rfl
    · rw [if_neg hexp] at h
      simp at h

theorem get_hit_snd_cache {α : Type} (c : CacheManager α) (k : String) (now : ℤ) (v : α)
    (c1 : CacheManager α) (h : CacheManager.get c k now = (some v, c1)) :
    c1.cache = c.cache := by
  unfold CacheManager.get at h
  cases hf : c.cache.find? (fun p => p.1 == k) with
  | none =>
    rw [hf] at h
    simp at h
  | some p =>
    obtain ⟨ks, e⟩ := p
    rw [hf] at h
    dsimp only at h
    by_cases hexp : now > e.expiresAt
    · rw [if_pos hexp] at h
      simp at h
    · rw [if_neg hexp] at h
      injection h with h1 h2
      rw [← h2]

theorem set_findEntry_other {α : Type} (c : CacheManager α) (k k' : String) (v : α)
    (ttl : Option ℤ) (now : ℤ) (hne : k' ≠ k) :
    (CacheManager.set c k v ttl now).findEntry k' = c.findEntry k' := by
  unfold CacheManager.set CacheManager.findEntry
  dsimp only
  rw [find?_mapSet_other c.cache k k' _ hne]

/-- First character of a string, used to separate the key namespaces. -/
def strHead (s : String) : Option Char := s.data.head?

theorem strHead_append_of_some (a x : String) (ca : Char) (ha : strHead a = some ca) :
    strHead (a ++ x) = some ca := by
  unfold strHead at ha ⊢
  rw [String.data_append]
  cases hdata : a.data with
  | nil =>
    rw [hdata] at ha
    simp at ha
  | cons ch t =>
    rw [hdata] at ha
    rw [List.cons_append]
    simpa using ha

theorem ne_of_strHead_ne (a b : String) (ca cb : Char) (ha : strHead a = some ca)
    (hb : strHead b = some cb) (hne : ca ≠ cb) : a ≠ b := by
  intro h
  rw [h, hb] at ha
  exact hne (by simpa using ha.symm)

theorem strHead_calculation (s c d : String) (pid : Option String) :
    strHead (CacheKeyBuilder.calculation s c d pid) = some 'c' := by
  unfold CacheKeyBuilder.calculation
  cases pid with
  | none =>
    exact strHead_append_of_some _ _ _ (strHead_append_of_some _ _ _
      (strHead_append_of_some _ _ _ (strHead_append_of_some _ _ _ rfl)))
  | some p =>
    exact strHead_append_of_some _ _ _ (strHead_append_of_some _ _ _
      (strHead_append_of_some _ _ _ (strHead_append_of_some _ _ _
        (strHead_append_of_some _ _ _ (strHead_append_of_some _ _ _ rfl)))))

theorem strHead_nearestWarehouse (s : String) :
    strHead (CacheKeyBuilder.nearestWarehouse s) = some 'n' :=
  strHead_append_of_some _ _ _ rfl

theorem strHead_shippingCharge (w c d : String) (pid : Option String) :
    strHead (CacheKeyBuilder.shippingCharge w c d pid) = some 's' := by
  unfold CacheKeyBuilder.shippingCharge
  cases pid with
  | none =>
    exact strHead_append_of_some _ _ _ (strHead_append_of_some _ _ _
      (strHead_append_of_some _ _ _ (strHead_append_of_some _ _ _ rfl)))
  | some p =>
    exact strHead_append_of_some _ _ _ (strHead_append_of_some _ _ _
      (strHead_append_of_some _ _ _ (strHead_append_of_some _ _ _
        (strHead_append_of_some _ _ _ (strHead_append_of_some _ _ _ rfl)))))

theorem calculation_ne_nearest (s c d : String) (pid : Option String) (b : String) :
    CacheKeyBuilder.calculation s c d pid ≠ CacheKeyBuilder.nearestWarehouse b :=
  ne_of_strHead_ne _ _ 'c' 'n' (strHead_calculation s c d pid)
    (strHead_nearestWarehouse b) (by decide)

theorem calculation_ne_shipping (s c d : String) (pid : Option String)
    (w c2 d2 : String) (pid2 : Option String) :
    CacheKeyBuilder.calculation s c d pid ≠ CacheKeyBuilder.shippingCharge w c2 d2 pid2 :=
  ne_of_strHead_ne _ _ 'c' 's' (strHead_calculation s c d pid)
    (strHead_shippingCharge w c2 d2 pid2) (by decide)

theorem findEntry_congr {α : Type} {c1 c2 : CacheManager α} (h : c1.cache = c2.cache)
    (k : String) : c1.findEntry k = c2.findEntry k := by
  unfold CacheManager.findEntry
  rw [h]

theorem findNearest_cache_spec (store : Store) (sid : String) (c : CacheManager CacheValue)
    (now : ℤ) (res : Except ShipError NearestWarehouseResult) (c' : CacheManager CacheValue)
    (h : findNearestWarehouse store sid c now = (res, c')) :
    (∀ k, k ≠ CacheKeyBuilder.nearestWarehouse sid → c'.findEntry k = c.findEntry k) ∧
    (∀ e, res = .error e → entryPreserved c c' (CacheKeyBuilder.nearestWarehouse sid)) := by
  unfold findNearestWarehouse at h
  rcases hg : CacheManager.get c (CacheKeyBuilder.nearestWarehouse sid) now with ⟨vo, c1⟩
  rw [hg] at h
  have hsnd : (CacheManager.get c (CacheKeyBuilder.nearestWarehouse sid) now).2 = c1 := by
    rw [hg]
  have hother : ∀ k, k ≠ CacheKeyBuilder.nearestWarehouse sid →
      c1.findEntry k = c.findEntry k := by
    intro k hk
    rw [← hsnd]
    exact get_snd_findEntry_other c _ k now hk
  cases vo with
  | some v =>
    have hcache : c1.cache = c.cache := get_hit_snd_cache c _ now _ c1 hg
    cases v with
    | nearest r =>
      dsimp only at h
      injection h with h1 h2
      subst h1
      subst h2
      refine ⟨hother, ?_⟩
      intro e he
      exact absurd he (by simp)
    | charge r =>
      dsimp only at h
      injection h with h1 h2
      subst h1
      subst h2
      refine ⟨hother, ?_⟩
      intro e he en hen
      rw [findEntry_congr hcache] at hen
      exact hen
    | complete r =>
      dsimp only at h
      injection h with h1 h2
      subst h1
      subst h2
      refine ⟨hother, ?_⟩
      intro e he en hen
      rw [findEntry_congr hcache] at hen
      exact hen
  | none =>
    dsimp only at h
    have hmiss : c1.findEntry (CacheKeyBuilder.nearestWarehouse sid) = none := by
      have h1' : (CacheManager.get c (CacheKeyBuilder.nearestWarehouse sid) now).1 = none := by
        rw [hg]
      have hx := get_fst_none_findEntry_none c _ now h1'
      rw [hsnd] at hx
      exact hx
    have hdone : c' = c1 →
        (∀ k, k ≠ CacheKeyBuilder.nearestWarehouse sid → c'.findEntry k = c.findEntry k) ∧
        (∀ e, res = .error e →
          entryPreserved c c' (CacheKeyBuilder.nearestWarehouse sid)) := by
      intro hc
      subst hc
      refine ⟨hother, ?_⟩
      intro e he en hen
      rw [hmiss] at hen
      exact absurd hen (by simp)
    cases hs : store.getSellerById sid with
    | none =>
      rw [hs] at h
      dsimp only at h
      injection h with h1 h2
      exact hdone h2.symm
    | some seller =>
      rw [hs] at h
      dsimp only at h
      by_cases hv : isValidCoordinate seller.latitude seller.longitude = false
      · rw [if_pos hv] at h
        injection h with h1 h2
        exact hdone h2.symm
      · rw [if_neg hv] at h
        cases hl : store.listActiveWarehouses with
        | nil =>
          rw [hl] at h
          dsimp only at h
          injection h with h1 h2
          exact hdone h2.symm
        | cons w ws =>
          rw [hl] at h
          dsimp only at h
          cases hsc : scanNearest seller.latitude seller.longitude (w :: ws) none with
          | error m =>
            rw [hsc] at h
            dsimp only at h
            injection h with h1 h2
            exact hdone h2.symm
          | ok o =>
            rw [hsc] at h
            cases o with
            | none =>
              dsimp only at h
              injection h with h1 h2
              exact hdone h2.symm
            | some p =>
              obtain ⟨nw, minD⟩ := p
              dsimp only at h
              injection h with h1 h2
              subst h1
              constructor
              · intro k hk
                rw [← h2, set_findEntry_other c1 _ k _ _ now hk]
                exact hother k hk
              · intro e he
                exact absurd he (by simp)

theorem charge_cache_spec (store : Store) (warehouseId customerId deliverySpeed : String)
    (productId : Option String) (c : CacheManager CacheValue) (now : ℤ)
    (res : Except ShipError ShippingChargeResult) (c' : CacheManager CacheValue)
    (h : calculateShippingCharge store warehouseId customerId deliverySpeed productId c now
      = (res, c')) :
    (∀ k, k ≠ CacheKeyBuilder.shippingCharge warehouseId customerId deliverySpeed productId →
      c'.findEntry k = c.findEntry k) ∧
    (∀ e, res = .error e → entryPreserved c c'
      (CacheKeyBuilder.shippingCharge warehouseId customerId deliverySpeed productId)) := by
  unfold calculateShippingCharge at h
  rcases hg : CacheManager.get c
      (CacheKeyBuilder.shippingCharge warehouseId customerId deliverySpeed productId) now
    with ⟨vo, c1⟩
  rw [hg] at h
  have hsnd : (CacheManager.get c
      (CacheKeyBuilder.shippingCharge warehouseId customerId deliverySpeed productId) now).2
      = c1 := by
    rw [hg]
  have hother : ∀ k,
      k ≠ CacheKeyBuilder.shippingCharge warehouseId customerId deliverySpeed productId →
      c1.findEntry k = c.findEntry k := by
    intro k hk
    rw [← hsnd]
    exact get_snd_findEntry_other c _ k now hk
  cases vo with
  | some v =>
    have hcache : c1.cache = c.cache := get_hit_snd_cache c _ now _ c1 hg
    cases v with
    | nearest r =>
      dsimp only at h
      injection h with h1 h2
      subst h1
      subst h2
      refine ⟨hother, ?_⟩
      intro e he en hen
      rw [findEntry_congr hcache] at hen
      exact hen
    | charge r =>
      dsimp only at h
      injection h with h1 h2
      subst h1
      subst h2
      refine ⟨hother, ?_⟩
      intro e he
      exact absurd he (by simp)
    | complete r =>
      dsimp only at h
      injection h with h1 h2
      subst h1
      subst h2
      refine ⟨hother, ?_⟩
      intro e he en hen
      rw [findEntry_congr hcache] at hen
      exact hen
  | none =>
    dsimp only at h
    have hmiss : c1.findEntry
        (CacheKeyBuilder.shippingCharge warehouseId customerId deliverySpeed productId)
        = none := by
      have h1' : (CacheManager.get c
          (CacheKeyBuilder.shippingCharge warehouseId customerId deliverySpeed productId)
          now).1 = none := by
        rw [hg]
      have hx := get_fst_none_findEntry_none c _ now h1'
      rw [hsnd] at hx
      exact hx
    have hdone : c' = c1 →
        (∀ k, k ≠ CacheKeyBuilder.shippingCharge warehouseId customerId deliverySpeed
          productId → c'.findEntry k = c.findEntry k) ∧
        (∀ e, res = .error e → entryPreserved c c'
          (CacheKeyBuilder.shippingCharge warehouseId customerId deliverySpeed productId)) := by
      intro hc
      subst hc
      refine ⟨hother, ?_⟩
      intro e he en hen
      rw [hmiss] at hen
      exact absurd hen (by simp)
    have hset : ∀ result : ShippingChargeResult,
        c' = CacheManager.set c1
          (CacheKeyBuilder.shippingCharge warehouseId customerId deliverySpeed productId)
          (.charge result) (some 120000) now →
        res = .ok result →
        (∀ k, k ≠ CacheKeyBuilder.shippingCharge warehouseId customerId deliverySpeed
          productId → c'.findEntry k = c.findEntry k) ∧
        (∀ e, res = .error e → entryPreserved c c'
          (CacheKeyBuilder.shippingCharge warehouseId customerId deliverySpeed productId)) := by
      intro result hc hres
      subst hc
      subst hres
      constructor
      · intro k hk
        rw [set_findEntry_other c1 _ k _ _ now hk]
        exact hother k hk
      · intro e he
        exact absurd he (by simp)
    cases hw : store.getWarehouseById warehouseId with
    | none =>
      rw [hw] at h
      dsimp only at h
      injection h with h1 h2
      exact hdone h2.symm
    | some warehouse =>
      rw [hw] at h
      dsimp only at h
      by_cases hv : isValidCoordinate warehouse.latitude warehouse.longitude = false
      · rw [if_pos hv] at h
        injection h with h1 h2
        exact hdone h2.symm
      · rw [if_neg hv] at h
        cases hcu : store.getCustomerById customerId with
        | none =>
          rw [hcu] at h
          dsimp only at h
          injection h with h1 h2
          exact hdone h2.symm
        | some customer =>
          rw [hcu] at h
          dsimp only at h
          by_cases hv2 : isValidCoordinate customer.latitude customer.longitude = false
          · rw [if_pos hv2] at h
            injection h with h1 h2
            exact hdone h2.symm
          · rw [if_neg hv2] at h
            cases hcfg : store.getDeliverySpeedConfig deliverySpeed with
            | none =>
              rw [hcfg] at h
              dsimp only at h
              injection h with h1 h2
              exact hdone h2.symm
            | some config =>
              rw [hcfg] at h
              dsimp only at h
              cases hcd : calculateDistance warehouse.latitude warehouse.longitude
                  customer.latitude customer.longitude with
              | error msg =>
                rw [hcd] at h
                dsimp only at h
                injection h with h1 h2
                exact hdone h2.symm
              | ok distance =>
                rw [hcd] at h
                dsimp only at h
                generalize (match productId with
                    | none => (1 : ℚ)
                    | some pid =>
                      match store.getProductById pid with
                      | some product => product.weight_kg
                      | none => 1) = wk at h
                cases hps : priceShipping distance wk deliverySpeed config with
                | error se =>
                  rw [hps] at h
                  cases se with
                  | negativeDistance =>
                    dsimp only at h
                    injection h with h1 h2
                    exact hdone h2.symm
                  | noTransportMode =>
                    dsimp only at h
                    injection h with h1 h2
                    exact hdone h2.symm
                | ok result =>
                  rw [hps] at h
                  dsimp only at h
                  injection h with h1 h2
                  exact hset result h2.symm h1.symm

theorem complete_cache_spec (store : Store) (sellerId customerId deliverySpeed : String)
    (productId : Option String) (c : CacheManager CacheValue) (now : ℤ)
    (res : Except ShipError CompleteShippingResult) (c' : CacheManager CacheValue)
    (h : calculateCompleteShipping store sellerId customerId deliverySpeed productId c now
      = (res, c')) :
    ∀ e, res = .error e → entryPreserved c c'
      (CacheKeyBuilder.calculation sellerId customerId deliverySpeed productId) := by
  unfold calculateCompleteShipping at h
  rcases hg : CacheManager.get c
      (CacheKeyBuilder.calculation sellerId customerId deliverySpeed productId) now
    with ⟨vo, c1⟩
  rw [hg] at h
  have hsnd : (CacheManager.get c
      (CacheKeyBuilder.calculation sellerId customerId deliverySpeed productId) now).2
      = c1 := by
    rw [hg]
  cases vo with
  | some v =>
    have hcache : c1.cache = c.cache := get_hit_snd_cache c _ now _ c1 hg
    cases v with
    | nearest r =>
      dsimp only at h
      injection h with h1 h2
      subst h1
      subst h2
      intro e he en hen
      rw [findEntry_congr hcache] at hen
      exact hen
    | charge r =>
      dsimp only at h
      injection h with h1 h2
      subst h1
      subst h2
      intro e he en hen
      rw [findEntry_congr hcache] at hen
      exact hen
    | complete r =>
      dsimp only at h
      injection h with h1 h2
      subst h1
      intro e he
      exact absurd he (by simp)
  | none =>
    dsimp only at h
    have hmiss : c1.findEntry
        (CacheKeyBuilder.calculation sellerId customerId deliverySpeed productId) = none := by
      have h1' : (CacheManager.get c
          (CacheKeyBuilder.calculation sellerId customerId deliverySpeed productId)
          now).1 = none := by
        rw [hg]
      have hx := get_fst_none_findEntry_none c _ now h1'
      rw [hsnd] at hx
      exact hx
    rcases hf : findNearestWarehouse store sellerId c1 now with ⟨fres, c2⟩
    rw [hf] at h
    have hp1 := (findNearest_cache_spec store sellerId c1 now fres c2 hf).1
    have h2none : c2.findEntry
        (CacheKeyBuilder.calculation sellerId customerId deliverySpeed productId) = none := by
      rw [hp1 _ (calculation_ne_nearest sellerId customerId deliverySpeed productId sellerId),
        hmiss]
    cases fres with
    | error e0 =>
      dsimp only at h
      injection h with h1 h2
      subst h2
      intro e he en hen
      rw [h2none] at hen
      exact absurd hen (by simp)
    | ok nw =>
      dsimp only at h
      rcases hcc : calculateShippingCharge store nw.warehouseId customerId deliverySpeed
          productId c2 now with ⟨sres, c3⟩
      rw [hcc] at h
      have hp2 := (charge_cache_spec store nw.warehouseId customerId deliverySpeed
        productId c2 now sres c3 hcc).1
      have h3none : c3.findEntry
          (CacheKeyBuilder.calculation sellerId customerId deliverySpeed productId)
          = none := by
        rw [hp2 _ (calculation_ne_shipping sellerId customerId deliverySpeed productId
          nw.warehouseId customerId deliverySpeed productId), h2none]
      cases sres with
      | error e0 =>
        dsimp only at h
        injection h with h1 h2
        subst h2
        intro e he en hen
        rw [h3none] at hen
        exact absurd hen (by simp)
      | ok sc =>
        dsimp only at h
        injection h with h1 h2
        intro e he
        rw [← h1] at he
        exact absurd he (by simp)

/-- C9: for each of `findNearestWarehouse`, `calculateShippingCharge` and
`calculateCompleteShipping`, if the operation raises an error then no cache
entry has been written under that operation's own cache key: every entry found
under that key afterwards was already present before the call. -/
theorem cache_write_error_atomicity (store : Store)
    (sellerId customerId warehouseId deliverySpeed : String) (productId : Option String)
    (c : CacheManager CacheValue) (now : ℤ) :
    (∀ res c' e, findNearestWarehouse store sellerId c now = (res, c') →
      res = .error e → entryPreserved c c' (CacheKeyBuilder.nearestWarehouse sellerId)) ∧
    (∀ res c' e, calculateShippingCharge store warehouseId customerId deliverySpeed
        productId c now = (res, c') →
      res = .error e → entryPreserved c c'
        (CacheKeyBuilder.shippingCharge warehouseId customerId deliverySpeed productId)) ∧
    (∀ res c' e, calculateCompleteShipping store sellerId customerId deliverySpeed
        productId c now = (res, c') →
      res = .error e → entryPreserved c c'
        (CacheKeyBuilder.calculation sellerId customerId deliverySpeed productId)) :=
  ⟨fun res c' e h he => (findNearest_cache_spec store sellerId c now res c' h).2 e he,
    fun res c' e h he => (charge_cache_spec store warehouseId customerId deliverySpeed
      productId c now res c' h).2 e he,
    fun res c' e h he => complete_cache_spec store sellerId customerId deliverySpeed
      productId c now res c' h e he⟩

/-- Store with no records at all, used by the C9 witness. -/
def c9Store : Store :=
  ⟨fun _ => none, fun _ => none, [], fun _ => none, fun _ => none, fun _ => none⟩

/-- Witness for C9: on an empty store the nearest-warehouse lookup fails with
seller-not-found, and nothing was written under its key. -/
theorem cache_write_error_atomicity_witness :
    entryPreserved (CacheManager.empty : CacheManager CacheValue) ⟨[], 0, 1⟩
      (CacheKeyBuilder.nearestWarehouse "s") :=
  (cache_write_error_atomicity c9Store "s" "c" "w" "standard" none CacheManager.empty 0).1
    (.error (.resourceNotFound "Seller" "s")) ⟨[], 0, 1⟩ (.resourceNotFound "Seller" "s")
    rfl rfl
